import Mathlib

/-!
# Verification of the clipboard-drop clip store

A shallow embedding of `src/clipboard_drop.py`: the clip store
(`save_clip`, `clear_all_clips`), settings loading (`load_settings`),
relative-time formatting (`relative_time`), image preview rendering
(`render_image_preview`) and the copy-back script-message handler
(`copy_back`).

The on-disk state visible to the store is the persisted index
(`clips.json`, a list of records, newest first) plus the blob files in
the clips directory.  We model the blob directory as an association
list from filename to byte content, and a byte as a `Nat`.  Platform
calls that the store merely consumes are passed in as explicit data:
the capture timestamp (`time.time()`), the decoded image-preview
caption (`NSBitmapImageRep` dimension decoding) and the local-time
string formatter (`time.strftime`).
-/

/-- The `type` tag of a stored record: `"text"` or `"image"`. -/
inductive ClipKind
  | text
  | image
deriving DecidableEq

/-- One record of the persisted index.  A text record uses `content`
(and has `filename = ""`); an image record uses `filename` (and has
`content = ""`), mirroring the two dictionary shapes the Python code
stores. -/
structure Clip where
  id : Nat
  kind : ClipKind
  content : String
  filename : String
  timestamp : Nat
  preview : String
deriving DecidableEq

/-- The clips directory: an association list from filename to the
blob's bytes.  A real directory maps each name to at most one file;
`fsWrite` and `fsUnlink` keep lookups consistent with that. -/
def Fs : Type := List (String × List Nat)

instance : DecidableEq Fs := by
  unfold Fs
  infer_instance

/-- Read a file's bytes, `none` when no file of that name exists. -/
def fsLookup : Fs → String → Option (List Nat)
  | [], _ => none
  | (n, b) :: rest, name => if n = name then some b else fsLookup rest name

/-- `Path.exists()`. -/
def fsExists (fs : Fs) (name : String) : Bool :=
  (fsLookup fs name).isSome

/-- `Path.unlink()`: remove the file of that name. -/
def fsUnlink : Fs → String → Fs
  | [], _ => []
  | (a, b) :: rest, name =>
      if a = name then fsUnlink rest name else (a, b) :: fsUnlink rest name

/-- The deletion idiom used by pruning and clearing:
`if path.exists(): path.unlink()` (best-effort, a missing file is
skipped). -/
def removeIfExists (fs : Fs) (name : String) : Fs :=
  if fsExists fs name then fsUnlink fs name else fs

/-- `Path.write_bytes(data)`: create or overwrite the file. -/
def fsWrite (fs : Fs) (name : String) (data : List Nat) : Fs :=
  (name, data) :: fsUnlink fs name

/-- The store's on-disk state: the persisted index (newest first) and
the blob directory. -/
structure StoreState where
  clips : List Clip
  fs : Fs
deriving DecidableEq

/-- Input to `save_clip`: `clip_type` together with `data`.  `other`
stands for any `clip_type` that is neither `"text"` nor `"image"`. -/
inductive CaptureInput
  | text (data : String)
  | image (data : List Nat)
  | other

/-- `data[:80].replace("\n", " ")` — the preview of a text clip.
Python slices by code point and replaces the one-character pattern
`"\n"` by `" "`, which is exactly a character-wise map over the first
80 characters. -/
def textPreview (data : String) : String :=
  String.mk ((data.toList.take 80).map fun c => if c = '\n' then ' ' else c)

/-- `f"img_{ts}.png"` — the deterministic blob filename. -/
def imgFilename (ts : Nat) : String :=
  "img_" ++ toString ts ++ ".png"

/-- The text record built by `save_clip`. -/
def mkTextClip (ts : Nat) (data : String) : Clip :=
  { id := ts, kind := ClipKind.text, content := data, filename := "",
    timestamp := ts, preview := textPreview data }

/-- The image record built by `save_clip`; `preview` is the caption
derived from platform image decoding (`"Screenshot (WxH)"`, falling
back to `"Image"`). -/
def mkImageClip (ts : Nat) (preview : String) : Clip :=
  { id := ts, kind := ClipKind.image, content := "", filename := imgFilename ts,
    timestamp := ts, preview := preview }

/-- `clips and clips[0]["type"] == "text" and clips[0]["content"] == data`:
the duplicate test of the text branch of `save_clip`. -/
def isTextDup : List Clip → String → Bool
  | [], _ => false
  | head :: _, data => head.kind == ClipKind.text && head.content == data

/-- The duplicate test of the image branch of `save_clip`: the head is
an image record AND its blob file exists AND the blob's size equals
`len(data)`. -/
def isImageDup (fs : Fs) : List Clip → List Nat → Bool
  | [], _ => false
  | head :: _, data =>
      head.kind == ClipKind.image &&
        match fsLookup fs head.filename with
        | some b => b.length == data.length
        | none => false

/-- The size of the head record's stored blob, when the blob exists
(`prev_file.stat().st_size`). -/
def blobSize (fs : Fs) (name : String) : Option Nat :=
  (fsLookup fs name).map List.length

/-- One-pop-per-iteration body of the auto-prune loop of `save_clip`:
`while len(clips) > max_clips: removed = clips.pop(); ...` — pop the
tail record and, when it is an image record, delete its blob file.
`fuel` bounds the number of iterations; the loop pops one record per
iteration, so starting `fuel` at the list's length makes the recursion
structural without changing what the loop computes. -/
def pruneFuel : Nat → Nat → List Clip → Fs → List Clip × Fs
  | 0, _, clips, fs => (clips, fs)
  | fuel + 1, maxClips, clips, fs =>
      if clips.length ≤ maxClips then (clips, fs)
      else
        match clips.getLast? with
        | none => (clips, fs)
        | some removed =>
            pruneFuel fuel maxClips clips.dropLast
              (if removed.kind == ClipKind.image then
                removeIfExists fs removed.filename
               else fs)

/-- The auto-prune loop of `save_clip`. -/
def prune (maxClips : Nat) (clips : List Clip) (fs : Fs) : List Clip × Fs :=
  pruneFuel clips.length maxClips clips fs

/-- `save_clip(clip_type, data)`: returns `True` if saved, `False` if
duplicate, together with the resulting on-disk state.  `maxClips` is
`settings.get("max_clips", 50)`, `ts = int(time.time())`, and
`imgPreview` models the platform image-dimension decoding that
produces the preview caption of an image record. -/
def save_clip (maxClips : Nat) (ts : Nat) (imgPreview : List Nat → String)
    (input : CaptureInput) (s : StoreState) : Bool × StoreState :=
  match input with
  | CaptureInput.text data =>
      if isTextDup s.clips data then (false, s)
      else
        let clips := mkTextClip ts data :: s.clips
        let pruned := prune maxClips clips s.fs
        (true, ⟨pruned.1, pruned.2⟩)
  | CaptureInput.image data =>
      if isImageDup s.fs s.clips data then (false, s)
      else
        let fs := fsWrite s.fs (imgFilename ts) data
        let clips := mkImageClip ts (imgPreview data) :: s.clips
        let pruned := prune maxClips clips fs
        (true, ⟨pruned.1, pruned.2⟩)
  | CaptureInput.other =>
      let pruned := prune maxClips s.clips s.fs
      (true, ⟨pruned.1, pruned.2⟩)

/-- `clear_all_clips()`: delete every image record's blob file
(best-effort per file) and persist an empty index. -/
def clear_all_clips (s : StoreState) : StoreState :=
  let fs := s.clips.foldl
    (fun fs clip =>
      if clip.kind == ClipKind.image then removeIfExists fs clip.filename
      else fs)
    s.fs
  ⟨[], fs⟩

/-- `relative_time(timestamp)`, with the global `time.time()` made an
explicit `now` argument.  The Python code binds
`diff = time.time() - timestamp` once; here the subtraction is
repeated verbatim in each guard. -/
def relative_time (now timestamp : Nat) : String :=
  if now - timestamp < 60 then "just now"
  else if now - timestamp < 3600 then
    toString ((now - timestamp) / 60) ++ " min ago"
  else if now - timestamp < 86400 then
    toString ((now - timestamp) / 3600) ++ " hr" ++
      (if 1 < (now - timestamp) / 3600 then "s" else "") ++ " ago"
  else if now - timestamp < 172800 then "yesterday"
  else
    toString ((now - timestamp) / 86400) ++ " days ago"

/-- Parsed settings: `max_clips` plus window geometry. -/
structure WindowCfg where
  width : Nat
  height : Nat
  opacity : ℚ
deriving DecidableEq

/-- The settings dictionary. -/
structure SettingsData where
  max_clips : Nat
  window : WindowCfg
deriving DecidableEq

/-- The defaults returned when no settings file exists:
`{"max_clips": 50, "window": {"width": 700, "height": 600, "opacity": 0.95}}`. -/
def defaultSettings : SettingsData :=
  { max_clips := 50, window := { width := 700, height := 600, opacity := 0.95 } }

/-- The observable state of the settings file: absent, present with
valid structured data, or present but malformed. -/
inductive SettingsFile
  | absent
  | valid (v : SettingsData)
  | malformed
deriving DecidableEq

/-- `load_settings()`: when the file exists it is handed to
`json.load` with no exception handler, so a malformed file raises
`json.decoder.JSONDecodeError` (modelled as `Except.error`); when the
file is absent the defaults are returned. -/
def load_settings : SettingsFile → Except String SettingsData
  | SettingsFile.absent => Except.ok defaultSettings
  | SettingsFile.valid v => Except.ok v
  | SettingsFile.malformed => Except.error "json.decoder.JSONDecodeError"

/-- The dark-mode stylesheet `PREVIEW_CSS` (literal braces written as
escapes). -/
def PREVIEW_CSS : String :=
  "\nbody \x7b\n    font-family: -apple-system, BlinkMacSystemFont, \"Segoe UI\", Helvetica, Arial, sans-serif;\n    font-size: 14px;\n    line-height: 1.6;\n    color: #e6edf3;\n    background: #0d1117;\n    padding: 24px 32px;\n    margin: 0;\n    -webkit-font-smoothing: antialiased;\n\x7d\npre \x7b\n    background: #161b22;\n    padding: 16px;\n    border-radius: 6px;\n    overflow-x: auto;\n    line-height: 1.45;\n    border: 1px solid #30363d;\n    font-family: ui-monospace, SFMono-Regular, \"SF Mono\", Menlo, monospace;\n    font-size: 13px;\n    color: #e6edf3;\n    white-space: pre-wrap;\n    word-wrap: break-word;\n\x7d\n.image-container \x7b\n    display: flex;\n    justify-content: center;\n    align-items: center;\n    min-height: 200px;\n    padding: 16px;\n\x7d\n.image-container img \x7b\n    max-width: 100%;\n    max-height: 80vh;\n    border-radius: 6px;\n    border: 1px solid #30363d;\n\x7d\n.clip-meta \x7b\n    color: #8b949e;\n    font-size: 12px;\n    margin-bottom: 12px;\n    padding-bottom: 8px;\n    border-bottom: 1px solid #30363d;\n    display: flex;\n    justify-content: space-between;\n    align-items: center;\n\x7d\n.copy-btn \x7b\n    background: #21262d;\n    color: #8b949e;\n    border: 1px solid #30363d;\n    border-radius: 6px;\n    padding: 4px 12px;\n    font-size: 12px;\n    cursor: pointer;\n    font-family: -apple-system, BlinkMacSystemFont, sans-serif;\n    transition: all 0.15s ease;\n\x7d\n.copy-btn:hover \x7b background: #30363d; color: #e6edf3; \x7d\n.copy-btn.copied \x7b background: #238636; border-color: #238636; color: #fff; \x7d\n"

/-- The `copyClip` script embedded at the bottom of every preview
document (literal braces and apostrophes written as escapes). -/
def copyScript : String :=
  "<script>\nfunction copyClip(btn) \x7b\n    window.webkit.messageHandlers.copyClip.postMessage(\x27copy\x27);\n    btn.textContent = \x27Copied!\x27;\n    btn.classList.add(\x27copied\x27);\n    setTimeout(() => \x7b btn.textContent = \x27Copy\x27; btn.classList.remove(\x27copied\x27); \x7d, 1500);\n\x7d\n</script>\n</body></html>"

/-- The base64 alphabet used by `base64.b64encode`. -/
def base64Alphabet : List Char :=
  String.toList "ABCDEFGHIJKLMNOPQRSTUVWXYZabcdefghijklmnopqrstuvwxyz0123456789+/"

/-- The base64 digit of a 6-bit value. -/
def b64char (n : Nat) : Char :=
  base64Alphabet.getD n (Char.ofNat 65)

/-- `base64.b64encode(data).decode("ascii")`. -/
def b64encode : List Nat → String
  | [] => ""
  | [b1] =>
      String.mk [b64char (b1 / 4), b64char (b1 % 4 * 16)] ++ "=="
  | [b1, b2] =>
      String.mk [b64char (b1 / 4), b64char (b1 % 4 * 16 + b2 / 16),
        b64char (b2 % 16 * 4)] ++ "="
  | b1 :: b2 :: b3 :: rest =>
      String.mk [b64char (b1 / 4), b64char (b1 % 4 * 16 + b2 / 16),
        b64char (b2 % 16 * 4 + b3 / 64), b64char (b3 % 64)] ++ b64encode rest

/-- `render_image_preview(filename, timestamp)`: rendered against the
blob directory `fs`.  `strftimeLocal` models
`time.strftime("%Y-%m-%d %H:%M:%S", time.localtime(timestamp))`, a
locale/timezone-dependent platform call.  When the blob file is
missing the plain not-found document is returned instead. -/
def render_image_preview (strftimeLocal : Nat → String) (fs : Fs)
    (filename : String) (timestamp : Nat) : String :=
  match fsLookup fs filename with
  | none => "<html><body><p>Image not found: " ++ filename ++ "</p></body></html>"
  | some imgData =>
      let b64 := b64encode imgData
      let timeStr := strftimeLocal timestamp
      "<!DOCTYPE html>\n<html><head>\n<meta charset=\"utf-8\">\n<style>" ++
        PREVIEW_CSS ++ "</style>\n</head><body>\n<div class=\"clip-meta\">\n    <span>Image clip &middot; " ++
        timeStr ++ "</span>\n    <button class=\"copy-btn\" onclick=\"copyClip(this)\">Copy</button>\n</div>\n<div class=\"image-container\">\n    <img src=\"data:image/png;base64," ++
        b64 ++ "\">\n</div>\n" ++ copyScript

/-- The observable system clipboard (`NSPasteboard.generalPasteboard`):
empty after `clearContents()`, or holding a string / image bytes. -/
inductive Clipboard
  | empty
  | text (s : String)
  | image (bytes : List Nat)
deriving DecidableEq

/-- `_CopyMessageHandler.userContentController_didReceiveScriptMessage_`:
with no currently displayed clip the handler returns at once and the
pasteboard `pb` is untouched; otherwise `pb.clearContents()` runs
first, then the clip's content (text) or its blob read fresh from disk
(image) is written — an image whose blob file is missing writes
nothing, leaving the pasteboard cleared. -/
def copy_back (fs : Fs) (currentClip : Option Clip) (pb : Clipboard) : Clipboard :=
  match currentClip with
  | none => pb
  | some clip =>
      match clip.kind with
      | ClipKind.text => Clipboard.text clip.content
      | ClipKind.image =>
          match fsLookup fs clip.filename with
          | some bytes => Clipboard.image bytes
          | none => Clipboard.empty

/-! ## Helper lemmas -/

theorem fsLookup_fsUnlink (fs : Fs) (m n : String) :
    fsLookup (fsUnlink fs m) n = if m = n then none else fsLookup fs n := by
  induction fs with
  | nil => simp [fsUnlink, fsLookup]
  | cons e rest ih =>
      obtain ⟨a, b⟩ := e
      by_cases hm : a = m
      · subst hm
        by_cases hn : a = n
        · subst hn
          simp [fsUnlink, fsLookup, ih]
        · simp [fsUnlink, fsLookup, hn, ih]
      · by_cases hn : a = n
        · subst hn
          have hmn : ¬m = a := fun hh => hm hh.symm
          simp [fsUnlink, fsLookup, hm, hmn, ih]
        · simp [fsUnlink, fsLookup, hm, hn, ih]

theorem fsLookup_removeIfExists (fs : Fs) (m n : String) :
    fsLookup (removeIfExists fs m) n =
      if m = n then
        (if fsExists fs m then none else fsLookup fs n)
      else fsLookup fs n := by
  unfold removeIfExists
  split
  · rw [fsLookup_fsUnlink]
  · simp

theorem fsExists_removeIfExists_self (fs : Fs) (n : String) :
    fsExists (removeIfExists fs n) n = false := by
  have h := fsLookup_removeIfExists fs n n
  rw [if_pos rfl] at h
  cases hex : fsExists fs n with
  | true =>
      rw [hex] at h
      simp only [if_true] at h
      simp [fsExists, h]
  | false =>
      rw [hex] at h
      simp only [Bool.false_eq_true, if_false] at h
      unfold fsExists at hex ⊢
      rw [h]
      exact hex

theorem fsLookup_removeIfExists_ne (fs : Fs) (m n : String) (h : m ≠ n) :
    fsLookup (removeIfExists fs m) n = fsLookup fs n := by
  rw [fsLookup_removeIfExists, if_neg h]

theorem fsExists_removeIfExists_mono (fs : Fs) (m n : String)
    (h : fsExists (removeIfExists fs m) n = true) : fsExists fs n = true := by
  by_cases hmn : m = n
  · subst hmn
    rw [fsExists_removeIfExists_self] at h
    exact absurd h (by simp)
  · unfold fsExists at h ⊢
    rwa [fsLookup_removeIfExists_ne fs m n hmn] at h

theorem getLast?_eq_some_mem_drop {clips : List Clip} {m : Nat} {removed : Clip}
    (hlen : m < clips.length) (hg : clips.getLast? = some removed) :
    removed ∈ clips.drop m := by
  have hsplit : clips.take m ++ clips.drop m = clips := List.take_append_drop m clips
  have hne : clips.drop m ≠ [] := by
    simp only [ne_eq, List.drop_eq_nil_iff, not_le]
    omega
  have : (clips.drop m).getLast? = some removed := by
    rw [← List.getLast?_append_of_ne_nil (clips.take m) hne, hsplit]
    exact hg
  exact List.mem_of_mem_getLast? this

theorem pruneFuel_fst (fuel m : Nat) (clips : List Clip) (fs : Fs)
    (hf : clips.length ≤ fuel) :
    (pruneFuel fuel m clips fs).1 = clips.take m := by
  induction fuel generalizing clips fs with
  | zero =>
      have hnil : clips = [] := List.length_eq_zero.mp (Nat.le_zero.mp hf)
      subst hnil
      simp [pruneFuel]
  | succ fuel ih =>
      rw [pruneFuel]
      split
      · rename_i h
        rw [List.take_of_length_le h]
      · rename_i h
        split
        · rename_i hg
          have hnil : clips = [] := by
            cases clips with
            | nil => rfl
            | cons a t => simp at hg
          subst hnil
          simp
        · rename_i removed hg
          rw [ih _ _ (by simp only [List.length_dropLast]; omega)]
          rw [List.dropLast_eq_take, List.take_take]
          congr 1
          omega

theorem prune_fst (m : Nat) (clips : List Clip) (fs : Fs) :
    (prune m clips fs).1 = clips.take m :=
  pruneFuel_fst clips.length m clips fs (Nat.le_refl _)

theorem pruneFuel_snd_lookup (fuel m : Nat) (clips : List Clip) (fs : Fs)
    (name : String) (hf : clips.length ≤ fuel)
    (h : ∀ c ∈ clips.drop m, c.filename ≠ name) :
    fsLookup (pruneFuel fuel m clips fs).2 name = fsLookup fs name := by
  induction fuel generalizing clips fs with
  | zero => simp [pruneFuel]
  | succ fuel ih =>
      rw [pruneFuel]
      split
      · rfl
      · rename_i hlen
        split
        · rfl
        · rename_i removed hg
          have hmem : removed ∈ clips.drop m :=
            getLast?_eq_some_mem_drop (by omega) hg
          have hsub : ∀ c ∈ clips.dropLast.drop m, c.filename ≠ name := by
            intro c hc
            exact h c (((List.dropLast_sublist clips).drop m).subset hc)
          rw [ih _ _ (by simp only [List.length_dropLast]; omega) hsub]
          split
          · exact fsLookup_removeIfExists_ne fs removed.filename name (h removed hmem)
          · rfl

theorem prune_snd_lookup (m : Nat) (clips : List Clip) (fs : Fs) (name : String)
    (h : ∀ c ∈ clips.drop m, c.filename ≠ name) :
    fsLookup (prune m clips fs).2 name = fsLookup fs name :=
  pruneFuel_snd_lookup clips.length m clips fs name (Nat.le_refl _) h

theorem pruneFuel_snd_exists_mono (fuel m : Nat) (clips : List Clip) (fs : Fs)
    (name : String)
    (h : fsExists (pruneFuel fuel m clips fs).2 name = true) :
    fsExists fs name = true := by
  induction fuel generalizing clips fs with
  | zero => simpa [pruneFuel] using h
  | succ fuel ih =>
      rw [pruneFuel] at h
      split at h
      · exact h
      · split at h
        · exact h
        · rename_i hlen removed hg
          have := ih _ _ h
          split at this
          · exact fsExists_removeIfExists_mono fs removed.filename name this
          · exact this

theorem prune_snd_exists_mono (m : Nat) (clips : List Clip) (fs : Fs)
    (name : String) (h : fsExists (prune m clips fs).2 name = true) :
    fsExists fs name = true :=
  pruneFuel_snd_exists_mono clips.length m clips fs name h


/-! ## Claim theorems -/

/-- **C6**: `relative_time` is a pure function of `(now, timestamp)`
whose buckets, for `diff = now - timestamp`, are: `diff < 60` gives
`"just now"`; `60 ≤ diff < 3600` gives `"N min ago"`;
`3600 ≤ diff < 86400` gives `"N hr ago"` pluralized to `"hrs"` exactly
when `N > 1`; `86400 ≤ diff < 172800` gives `"yesterday"`; otherwise
`"N days ago"`.  All boundaries are half-open on the lower bound:
`diff = 60` is not `"just now"` and `diff = 86399` is still in the
hours bucket. -/
theorem relative_time_buckets :
    (∀ now ts : Nat, now - ts < 60 → relative_time now ts = "just now")
    ∧ (∀ now ts : Nat, 60 ≤ now - ts → now - ts < 3600 →
        relative_time now ts = toString ((now - ts) / 60) ++ " min ago")
    ∧ (∀ now ts : Nat, 3600 ≤ now - ts → now - ts < 86400 →
        relative_time now ts =
          toString ((now - ts) / 3600) ++ " hr" ++
            (if 1 < (now - ts) / 3600 then "s" else "") ++ " ago")
    ∧ (∀ now ts : Nat, 86400 ≤ now - ts → now - ts < 172800 →
        relative_time now ts = "yesterday")
    ∧ (∀ now ts : Nat, 172800 ≤ now - ts →
        relative_time now ts = toString ((now - ts) / 86400) ++ " days ago")
    ∧ relative_time 59 0 = "just now"
    ∧ relative_time 60 0 = "1 min ago"
    ∧ relative_time 60 0 ≠ "just now"
    ∧ relative_time 3600 0 = "1 hr ago"
    ∧ relative_time 7200 0 = "2 hrs ago"
    ∧ relative_time 86399 0 = "23 hrs ago"
    ∧ relative_time 86400 0 = "yesterday"
    ∧ relative_time 172800 0 = "2 days ago" := by
  refine ⟨?_, ?_, ?_, ?_, ?_, by decide, by decide, by decide, by decide,
    by decide, by decide, by decide, by decide⟩
  · intro now ts h
    unfold relative_time
    rw [if_pos h]
  · intro now ts h1 h2
    unfold relative_time
    rw [if_neg (by omega), if_pos h2]
  · intro now ts h1 h2
    unfold relative_time
    rw [if_neg (by omega), if_neg (by omega), if_pos h2]
  · intro now ts h1 h2
    unfold relative_time
    rw [if_neg (by omega), if_neg (by omega), if_neg (by omega), if_pos h2]
  · intro now ts h1
    unfold relative_time
    rw [if_neg (by omega), if_neg (by omega), if_neg (by omega),
      if_neg (by omega)]

/-- **C5** counterexample: with the settings file present but
malformed, `load_settings` propagates the JSON parse error (there is
no exception handler around `json.load`) instead of falling back to
the default configuration. -/
theorem load_settings_malformed_no_fallback :
    load_settings SettingsFile.malformed ≠ Except.ok defaultSettings
    ∧ load_settings SettingsFile.malformed =
        Except.error "json.decoder.JSONDecodeError" :=
  ⟨fun h => Except.noConfusion h, rfl⟩

/-- **C5** (amended): `load_settings` returns the defaults
(max_clips 50, window 700×600×0.95) when the settings file is absent,
and the parsed data when the file holds valid structured data; when
the file is present but malformed the load raises a JSON decode error
— it does not fall back to defaults, so operations that read settings
fail rather than completing with default configuration. -/
theorem load_settings_spec :
    load_settings SettingsFile.absent = Except.ok defaultSettings
    ∧ (∀ v : SettingsData, load_settings (SettingsFile.valid v) = Except.ok v)
    ∧ load_settings SettingsFile.malformed =
        Except.error "json.decoder.JSONDecodeError"
    ∧ defaultSettings.max_clips = 50
    ∧ defaultSettings.window.width = 700
    ∧ defaultSettings.window.height = 600
    ∧ defaultSettings.window.opacity = 0.95 :=
  ⟨rfl, fun _ => rfl, rfl, rfl, rfl, rfl, rfl⟩

/-- **C10**: for an input whose kind is neither Text nor Image,
`save_clip` inserts no record, still prunes the loaded sequence down
to `max_clips` (the result is exactly the first `max_clips` loaded
records), re-persists it, and returns `True` — the same value that
signals a completed capture. -/
theorem save_clip_unknown_kind :
    ∀ (maxClips ts : Nat) (imgPreview : List Nat → String) (s : StoreState),
      (save_clip maxClips ts imgPreview CaptureInput.other s).1 = true
      ∧ ((save_clip maxClips ts imgPreview CaptureInput.other s).2).clips
          = s.clips.take maxClips
      ∧ ((save_clip maxClips ts imgPreview CaptureInput.other s).2).clips.length
          ≤ maxClips := by
  intro maxClips ts ip s
  refine ⟨rfl, ?_, ?_⟩
  · show (prune maxClips s.clips s.fs).1 = s.clips.take maxClips
    exact prune_fst maxClips s.clips s.fs
  · show (prune maxClips s.clips s.fs).1.length ≤ maxClips
    rw [prune_fst, List.length_take]
    exact Nat.min_le_left _ _

/-- **C1**: a text capture is classified as a duplicate iff a head
record exists, its kind is Text, and its content equals the input
byte-for-byte; on a duplicate `save_clip` returns `False` and performs
no mutation (the stored sequence and persisted index are returned
unchanged).  Capturing identical consecutive text twice yields exactly
one stored record, and a subsequent capture of different text yields
two records, most-recent first. -/
theorem save_clip_text_dedup :
    (∀ (clips : List Clip) (data : String),
        isTextDup clips data = true ↔
          ∃ head rest, clips = head :: rest
            ∧ head.kind = ClipKind.text ∧ head.content = data)
    ∧ (∀ (maxClips ts : Nat) (imgPreview : List Nat → String) (data : String)
          (s : StoreState),
        isTextDup s.clips data = true →
          save_clip maxClips ts imgPreview (CaptureInput.text data) s = (false, s))
    ∧ (let ip : List Nat → String := fun _ => "Image"
       let s1 := (save_clip 50 1 ip (CaptureInput.text "a") ⟨[], []⟩).2
       let r2 := save_clip 50 2 ip (CaptureInput.text "a") s1
       let s3 := (save_clip 50 3 ip (CaptureInput.text "b") r2.2).2
       s1.clips.map Clip.content = ["a"]
       ∧ r2.1 = false
       ∧ r2.2 = s1
       ∧ s3.clips.map Clip.content = ["b", "a"]
       ∧ s3.clips.map Clip.id = [3, 1]) := by
  refine ⟨?_, ?_, by decide⟩
  · intro clips data
    cases clips with
    | nil => simp [isTextDup]
    | cons head rest => simp [isTextDup]
  · intro maxClips ts ip data s h
    simp [save_clip, h]

/-- **C2**: an image capture is classified as a duplicate iff a head
record exists, its kind is Image, and the byte length of the head's
stored blob equals the byte length of the input; on a duplicate
`save_clip` returns `False` with no mutation.  The comparison is
length-only: the classification depends on the input only through its
length, so two different images of identical byte length are treated
alike, and when the head's stored blob length differs from the input
length the capture is never a duplicate. -/
theorem save_clip_image_dedup :
    (∀ (fs : Fs) (clips : List Clip) (data : List Nat),
        isImageDup fs clips data = true ↔
          ∃ head rest, clips = head :: rest
            ∧ head.kind = ClipKind.image
            ∧ blobSize fs head.filename = some data.length)
    ∧ (∀ (maxClips ts : Nat) (imgPreview : List Nat → String) (data : List Nat)
          (s : StoreState),
        isImageDup s.fs s.clips data = true →
          save_clip maxClips ts imgPreview (CaptureInput.image data) s = (false, s))
    ∧ (∀ (fs : Fs) (clips : List Clip) (d1 d2 : List Nat),
        d1.length = d2.length →
          isImageDup fs clips d1 = isImageDup fs clips d2)
    ∧ (∀ (fs : Fs) (head : Clip) (rest : List Clip) (d2 : List Nat) (n : Nat),
        blobSize fs head.filename = some n → n ≠ d2.length →
          isImageDup fs (head :: rest) d2 = false) := by
  refine ⟨?_, ?_, ?_, ?_⟩
  · intro fs clips data
    cases clips with
    | nil => simp [isImageDup]
    | cons head rest =>
        cases hfs : fsLookup fs head.filename with
        | none => simp [isImageDup, blobSize, hfs]
        | some b => simp [isImageDup, blobSize, hfs]
  · intro maxClips ts ip data s h
    simp [save_clip, h]
  · intro fs clips d1 d2 hlen
    cases clips with
    | nil => rfl
    | cons head rest =>
        cases hfs : fsLookup fs head.filename with
        | none => simp [isImageDup, hfs]
        | some b => simp [isImageDup, hfs, hlen]
  · intro fs head rest d2 n hblob hne
    cases hfs : fsLookup fs head.filename with
    | none => simp [blobSize, hfs] at hblob
    | some b =>
        simp only [blobSize, hfs, Option.map_some] at hblob
        have hb : b.length = n := Option.some.injEq _ _ ▸ hblob.symm ▸ rfl
        simp [isImageDup, hfs]
        intro _
        omega

/-- **C9**: when the head record is an Image whose blob file does not
exist on disk, an image capture is never classified as a duplicate,
whatever the input's byte length: `save_clip` reports a save and a new
record is inserted at the head (the result is the new record consed
onto the old sequence, pruned to `max_clips`; with a positive
`max_clips` the head of the result is the new record). -/
theorem save_clip_image_missing_blob_not_dup :
    ∀ (maxClips ts : Nat) (imgPreview : List Nat → String) (data : List Nat)
      (head : Clip) (rest : List Clip) (fs : Fs),
      head.kind = ClipKind.image →
      fsExists fs head.filename = false →
      isImageDup fs (head :: rest) data = false
      ∧ (save_clip maxClips ts imgPreview (CaptureInput.image data)
            ⟨head :: rest, fs⟩).1 = true
      ∧ ((save_clip maxClips ts imgPreview (CaptureInput.image data)
            ⟨head :: rest, fs⟩).2).clips
          = (mkImageClip ts (imgPreview data) :: head :: rest).take maxClips
      ∧ (0 < maxClips →
          ((save_clip maxClips ts imgPreview (CaptureInput.image data)
              ⟨head :: rest, fs⟩).2).clips.head?
            = some (mkImageClip ts (imgPreview data))) := by
  intro maxClips ts ip data head rest fs hkind hex
  have hlook : fsLookup fs head.filename = none := by
    unfold fsExists at hex
    exact Option.not_isSome_iff_eq_none.mp (by simp [hex])
  have hdup : isImageDup fs (head :: rest) data = false := by
    simp [isImageDup, hlook]
  refine ⟨hdup, ?_, ?_, ?_⟩
  · simp [save_clip, hdup]
  · simp only [save_clip, hdup, Bool.false_eq_true, if_false]
    exact prune_fst _ _ _
  · intro hpos
    simp only [save_clip, hdup, Bool.false_eq_true, if_false]
    rw [prune_fst]
    cases maxClips with
    | zero => omega
    | succ k => simp [List.take]

/-- Witness for C9: a store whose head is an image record with no blob
on disk, captured over with a two-byte image — not a duplicate, saved,
new record at the head. -/
theorem save_clip_image_missing_blob_not_dup_witness :
    isImageDup [] [⟨1, ClipKind.image, "", "img_1.png", 1, "Image"⟩] [7, 7] = false
    ∧ (save_clip 2 5 (fun _ => "Image") (CaptureInput.image [7, 7])
          ⟨[⟨1, ClipKind.image, "", "img_1.png", 1, "Image"⟩], []⟩).1 = true
    ∧ ((save_clip 2 5 (fun _ => "Image") (CaptureInput.image [7, 7])
          ⟨[⟨1, ClipKind.image, "", "img_1.png", 1, "Image"⟩], []⟩).2).clips
        = (mkImageClip 5 "Image"
            :: [⟨1, ClipKind.image, "", "img_1.png", 1, "Image"⟩]).take 2
    ∧ (0 < 2 →
        ((save_clip 2 5 (fun _ => "Image") (CaptureInput.image [7, 7])
            ⟨[⟨1, ClipKind.image, "", "img_1.png", 1, "Image"⟩], []⟩).2).clips.head?
          = some (mkImageClip 5 "Image")) := by
  exact save_clip_image_missing_blob_not_dup 2 5 (fun _ => "Image") [7, 7]
    ⟨1, ClipKind.image, "", "img_1.png", 1, "Image"⟩ [] [] rfl rfl

theorem fsLookup_fsWrite_self (fs : Fs) (n : String) (d : List Nat) :
    fsLookup (fsWrite fs n d) n = some d := by
  simp [fsWrite, fsLookup]

theorem fsExists_false_iff (fs : Fs) (n : String) :
    fsExists fs n = false ↔ fsLookup fs n = none := by
  unfold fsExists
  cases fsLookup fs n <;> simp

/-- The per-record body of the loop in `clear_all_clips`. -/
def clearStep (fs : Fs) (clip : Clip) : Fs :=
  if clip.kind == ClipKind.image then removeIfExists fs clip.filename else fs

theorem clearStep_exists_mono (fs : Fs) (clip : Clip) (name : String)
    (h : fsExists (clearStep fs clip) name = true) : fsExists fs name = true := by
  unfold clearStep at h
  split at h
  · exact fsExists_removeIfExists_mono fs clip.filename name h
  · exact h

theorem clearFold_exists_mono (clips : List Clip) (fs : Fs) (name : String)
    (h : fsExists (clips.foldl clearStep fs) name = true) :
    fsExists fs name = true := by
  induction clips generalizing fs with
  | nil => exact h
  | cons a rest ih => exact clearStep_exists_mono fs a name (ih (clearStep fs a) h)

theorem clearFold_exists_false (clips : List Clip) (fs : Fs) (name : String)
    (h : fsExists fs name = false) :
    fsExists (clips.foldl clearStep fs) name = false := by
  cases hfold : fsExists (clips.foldl clearStep fs) name with
  | false => rfl
  | true =>
      rw [clearFold_exists_mono clips fs name hfold] at h
      exact h

theorem clearFold_removes (clips : List Clip) (fs : Fs) (c : Clip)
    (hmem : c ∈ clips) (hkind : c.kind = ClipKind.image) :
    fsExists (clips.foldl clearStep fs) c.filename = false := by
  induction clips generalizing fs with
  | nil => cases hmem
  | cons a rest ih =>
      rcases List.mem_cons.mp hmem with rfl | hmem
      · simp only [List.foldl_cons]
        apply clearFold_exists_false
        unfold clearStep
        rw [if_pos (by simp [hkind])]
        exact fsExists_removeIfExists_self fs c.filename
      · exact ih (clearStep fs a) hmem

/-- **C3**: starting from any store of length at most `max_clips`,
every capture leaves the store's length at most `max_clips`.  With
`max_clips = 2`, after `2 + 2` non-duplicate image captures from an
empty store, the store holds exactly the 2 most recent records by id
and both evicted records' blob files no longer exist on disk (while
the retained records' blobs do). -/
theorem save_clip_bounded_retention :
    (∀ (maxClips ts : Nat) (imgPreview : List Nat → String)
        (input : CaptureInput) (s : StoreState),
      s.clips.length ≤ maxClips →
        ((save_clip maxClips ts imgPreview input s).2).clips.length ≤ maxClips)
    ∧ (let ip : List Nat → String := fun _ => "Image"
       let r1 := save_clip 2 1 ip (CaptureInput.image [0]) ⟨[], []⟩
       let r2 := save_clip 2 2 ip (CaptureInput.image [0, 0]) r1.2
       let r3 := save_clip 2 3 ip (CaptureInput.image [0, 0, 0]) r2.2
       let r4 := save_clip 2 4 ip (CaptureInput.image [0, 0, 0, 0]) r3.2
       r1.1 = true ∧ r2.1 = true ∧ r3.1 = true ∧ r4.1 = true
       ∧ r4.2.clips.map Clip.id = [4, 3]
       ∧ r4.2.clips.length = 2
       ∧ fsExists r4.2.fs "img_1.png" = false
       ∧ fsExists r4.2.fs "img_2.png" = false
       ∧ fsExists r4.2.fs "img_3.png" = true
       ∧ fsExists r4.2.fs "img_4.png" = true) := by
  refine ⟨?_, by decide⟩
  intro maxClips ts ip input s hlen
  cases input with
  | text data =>
      cases hdup : isTextDup s.clips data with
      | true =>
          simp only [save_clip, hdup, if_true]
          exact hlen
      | false =>
          simp only [save_clip, hdup, Bool.false_eq_true, if_false]
          rw [prune_fst, List.length_take]
          exact Nat.min_le_left _ _
  | image data =>
      cases hdup : isImageDup s.fs s.clips data with
      | true =>
          simp only [save_clip, hdup, if_true]
          exact hlen
      | false =>
          simp only [save_clip, hdup, Bool.false_eq_true, if_false]
          rw [prune_fst, List.length_take]
          exact Nat.min_le_left _ _
  | other =>
      show (prune maxClips s.clips s.fs).1.length ≤ maxClips
      rw [prune_fst, List.length_take]
      exact Nat.min_le_left _ _

/-- **C4**: after `clear_all_clips` the persisted sequence is empty
and no blob file belonging to a prior image record still exists;
deletion is best-effort per file — a filename absent from disk is
skipped (it simply stays absent), never an error. -/
theorem clear_all_clips_spec :
    ∀ s : StoreState,
      (clear_all_clips s).clips = []
      ∧ (∀ c ∈ s.clips, c.kind = ClipKind.image →
          fsExists (clear_all_clips s).fs c.filename = false)
      ∧ (∀ name : String, fsExists s.fs name = false →
          fsExists (clear_all_clips s).fs name = false) := by
  intro s
  have hfold : (clear_all_clips s).fs = s.clips.foldl clearStep s.fs := rfl
  refine ⟨rfl, ?_, ?_⟩
  · intro c hmem hkind
    rw [hfold]
    exact clearFold_removes s.clips s.fs c hmem hkind
  · intro name h
    rw [hfold]
    exact clearFold_exists_false s.clips s.fs name h

/-- **C7**: the copy-back handler writes content byte-identical to the
displayed record's original data: for a Text record it writes the
record's `content` as plain text, and for an Image record it reads the
blob bytes fresh from disk and writes them as image data.  A
non-duplicate capture followed by copy-back of the new head record
round-trips the original bytes (for an image capture, provided
`max_clips` is positive and no pre-existing record already owns the
new blob's filename — the id-collision overwrite risk the data model
accepts). -/
theorem copy_back_roundtrip :
    (∀ (fs : Fs) (clip : Clip) (pb : Clipboard),
        clip.kind = ClipKind.text →
          copy_back fs (some clip) pb = Clipboard.text clip.content)
    ∧ (∀ (fs : Fs) (clip : Clip) (pb : Clipboard) (bytes : List Nat),
        clip.kind = ClipKind.image →
          fsLookup fs clip.filename = some bytes →
          copy_back fs (some clip) pb = Clipboard.image bytes)
    ∧ (∀ (maxClips ts : Nat) (imgPreview : List Nat → String) (data : String)
          (s : StoreState) (pb : Clipboard),
        0 < maxClips →
        isTextDup s.clips data = false →
          (((save_clip maxClips ts imgPreview (CaptureInput.text data) s).2).clips.head?
              = some (mkTextClip ts data))
          ∧ copy_back
              ((save_clip maxClips ts imgPreview (CaptureInput.text data) s).2).fs
              (some (mkTextClip ts data)) pb
            = Clipboard.text data)
    ∧ (∀ (maxClips ts : Nat) (imgPreview : List Nat → String) (data : List Nat)
          (s : StoreState) (pb : Clipboard),
        0 < maxClips →
        isImageDup s.fs s.clips data = false →
        (∀ c ∈ s.clips, c.filename ≠ imgFilename ts) →
          (((save_clip maxClips ts imgPreview (CaptureInput.image data) s).2).clips.head?
              = some (mkImageClip ts (imgPreview data)))
          ∧ copy_back
              ((save_clip maxClips ts imgPreview (CaptureInput.image data) s).2).fs
              (some (mkImageClip ts (imgPreview data))) pb
            = Clipboard.image data) := by
  refine ⟨?_, ?_, ?_, ?_⟩
  · intro fs clip pb hkind
    obtain ⟨cid, ckind, ccontent, cfile, cts, cprev⟩ := clip
    cases hkind
    rfl
  · intro fs clip pb bytes hkind hlook
    obtain ⟨cid, ckind, ccontent, cfile, cts, cprev⟩ := clip
    cases hkind
    show (match fsLookup fs cfile with
      | some bytes => Clipboard.image bytes
      | none => Clipboard.empty) = Clipboard.image bytes
    rw [hlook]
  · intro maxClips ts ip data s pb hpos hdup
    constructor
    · simp only [save_clip, hdup, Bool.false_eq_true, if_false]
      rw [prune_fst]
      cases maxClips with
      | zero => omega
      | succ k => simp [List.take_succ_cons]
    · rfl
  · intro maxClips ts ip data s pb hpos hdup hnocol
    have hlook :
        fsLookup
          ((save_clip maxClips ts ip (CaptureInput.image data) s).2).fs
          (imgFilename ts) = some data := by
      have hfs2 :
          ((save_clip maxClips ts ip (CaptureInput.image data) s).2).fs
            = (prune maxClips (mkImageClip ts (ip data) :: s.clips)
                (fsWrite s.fs (imgFilename ts) data)).2 := by
        simp only [save_clip, hdup, Bool.false_eq_true, if_false]
      rw [hfs2, prune_snd_lookup]
      · exact fsLookup_fsWrite_self s.fs (imgFilename ts) data
      · intro c hc
        cases maxClips with
        | zero => omega
        | succ k =>
            rw [List.drop_succ_cons] at hc
            exact hnocol c (List.mem_of_mem_drop hc)
    constructor
    · simp only [save_clip, hdup, Bool.false_eq_true, if_false]
      rw [prune_fst]
      cases maxClips with
      | zero => omega
      | succ k => simp [List.take_succ_cons]
    · show (match fsLookup
          ((save_clip maxClips ts ip (CaptureInput.image data) s).2).fs
          (imgFilename ts) with
        | some bytes => Clipboard.image bytes
        | none => Clipboard.empty) = Clipboard.image data
      rw [hlook]

/-- **C8** counterexample: copy-back for an image record whose blob
file is absent is not a no-op — `pb.clearContents()` runs before the
kind dispatch, so the previous clipboard content is erased even though
no write is performed. -/
theorem copy_back_missing_blob_not_noop :
    copy_back [] (some ⟨9, ClipKind.image, "", "img_9.png", 9, "Image"⟩)
        (Clipboard.text "prior")
      = Clipboard.empty
    ∧ Clipboard.text "prior" ≠ Clipboard.empty :=
  ⟨rfl, fun h => Clipboard.noConfusion h⟩

/-- **C8** (amended): rendering an Image record whose blob file is
absent returns the "not found" document referencing the record's
filename (the render is total — it never fails); copy-back for such a
record performs no clipboard write, but it is not a pure no-op: the
handler has already cleared the pasteboard, so the result is the empty
clipboard (never a crash). -/
theorem missing_blob_degraded :
    (∀ (strftimeLocal : Nat → String) (fs : Fs) (filename : String) (t : Nat),
        fsExists fs filename = false →
          render_image_preview strftimeLocal fs filename t
            = "<html><body><p>Image not found: " ++ filename ++ "</p></body></html>")
    ∧ (∀ (fs : Fs) (clip : Clip) (pb : Clipboard),
        clip.kind = ClipKind.image →
        fsExists fs clip.filename = false →
          copy_back fs (some clip) pb = Clipboard.empty) := by
  constructor
  · intro strf fs filename t hex
    have hlook : fsLookup fs filename = none := (fsExists_false_iff fs filename).mp hex
    unfold render_image_preview
    rw [hlook]
  · intro fs clip pb hkind hex
    have hlook : fsLookup fs clip.filename = none :=
      (fsExists_false_iff fs clip.filename).mp hex
    obtain ⟨cid, ckind, ccontent, cfile, cts, cprev⟩ := clip
    cases hkind
    show (match fsLookup fs cfile with
      | some bytes => Clipboard.image bytes
      | none => Clipboard.empty) = Clipboard.empty
    rw [hlook]
